import Mathlib

/-!
Shallow embedding of the Asylo enclave-manager core
(`asylo/platform/core/enclave_manager.cc` and
`asylo/platform/primitives/sgx/untrusted_sgx.cc`) together with proofs
about its registry, signal-dispatch, load/destroy and SGX-backend
behaviour.  C++ pointers to clients are modelled as natural numbers
(0 plays the role of the null pointer), the `absl::flat_hash_map` /
`std::map` registries as association lists with unique keys, and the
opaque native calls (enclave creation, Initialize/Finalize, signal
restoration) as oracle parameters supplying their outcomes.
-/

namespace Asylo

/-- Google canonical error codes used by the modelled paths
(`error::GoogleError` in the source). -/
inductive GoogleError
  | ok
  | invalidArgument
  | alreadyExists
  | failedPrecondition
  | resourceExhausted
  | internal
deriving DecidableEq

/-- Outcome of a native SGX call (`sgx_status_t`): success,
the transient `SGX_INTERNAL_ERROR_ENCLAVE_CREATE_INTERRUPTED`, or any
other failure code. -/
inductive SgxStatus
  | success
  | createInterrupted
  | otherError (code : Nat)
deriving DecidableEq

/-- An `asylo::Status`: an error code living in one of the two error
spaces that occur in the modelled code (Google canonical space or the
SGX error space), plus a message. -/
inductive Status
  | google (code : GoogleError) (msg : String)
  | sgx (code : SgxStatus) (msg : String)
deriving DecidableEq

/-- The `Status::OkStatus()` value (also the default-constructed
`Status`). -/
def Status.okStatus : Status := .google .ok ""

/-- Whether a status is OK (`Status::ok()`). -/
def Status.isOk : Status → Bool
  | .google .ok _ => true
  | _ => false

/-- The two error spaces occurring in the modelled code. -/
inductive ErrorSpace
  | googleSpace
  | sgxSpace
deriving DecidableEq

/-- Which error space a status belongs to. -/
def Status.space : Status → ErrorSpace
  | .google _ _ => .googleSpace
  | .sgx _ _ => .sgxSpace

/-- The Google error code of a status, if it is in the Google space. -/
def Status.googleCode : Status → Option GoogleError
  | .google c _ => some c
  | .sgx _ _ => none

/-- The SGX code of a status, if it is in the SGX space. -/
def Status.sgxCode : Status → Option SgxStatus
  | .google _ _ => none
  | .sgx c _ => some c

section MapModel

variable {κ α : Type} [DecidableEq κ]

/-- Lookup in an association-list map (`map.find(k)`). -/
def mapFind : List (κ × α) → κ → Option α
  | [], _ => none
  | (k, v) :: rest, key => if k = key then some v else mapFind rest key

/-- Erase every binding of a key (`map.erase(k)`; the modelled maps keep
keys unique, so at most one binding is removed). -/
def mapErase (m : List (κ × α)) (key : κ) : List (κ × α) :=
  m.filter (fun p => decide (p.1 ≠ key))

/-- Insert a binding only when the key is absent (`map.emplace(k, v)`). -/
def mapEmplace (m : List (κ × α)) (key : κ) (v : α) : List (κ × α) :=
  match mapFind m key with
  | some _ => m
  | none => (key, v) :: m

/-- Overwriting assignment (`map[k] = v`). -/
def mapAssign (m : List (κ × α)) (key : κ) (v : α) : List (κ × α) :=
  (key, v) :: mapErase m key

/-- Default-inserting access (`map[k]` as an rvalue): returns the stored
value, or inserts and returns the default when the key is absent.  The
second component is the possibly grown map. -/
def mapIndexDefault (m : List (κ × α)) (key : κ) (d : α) : α × List (κ × α) :=
  match mapFind m key with
  | some v => (v, m)
  | none => (d, (key, d) :: m)

theorem mapFind_erase_self (m : List (κ × α)) (key : κ) :
    mapFind (mapErase m key) key = none := by
  induction m with
  | nil => rfl
  | cons p rest ih =>
    by_cases h : p.1 = key
    · simpa [mapErase, List.filter, h] using ih
    · cases p with
      | mk k v => simp_all [mapErase, List.filter, mapFind]

theorem mapFind_erase_ne (m : List (κ × α)) (key k2 : κ) (h : k2 ≠ key) :
    mapFind (mapErase m key) k2 = mapFind m k2 := by
  induction m with
  | nil => rfl
  | cons p rest ih =>
    cases p with
    | mk k v =>
      by_cases hk : k = key
      · subst hk
        have : k ≠ k2 := fun hc => h hc.symm
        simp_all [mapErase, List.filter, mapFind]
      · by_cases hk2 : k = k2 <;> simp_all [mapErase, List.filter, mapFind]

theorem mapFind_assign_self (m : List (κ × α)) (key : κ) (v : α) :
    mapFind (mapAssign m key v) key = some v := by
  simp [mapAssign, mapFind]

theorem mapFind_assign_ne (m : List (κ × α)) (key k2 : κ) (v : α) (h : k2 ≠ key) :
    mapFind (mapAssign m key v) k2 = mapFind m k2 := by
  have hne : ¬ key = k2 := fun hc => h hc.symm
  have := mapFind_erase_ne m key k2 h
  simp [mapAssign, mapFind, hne, this]

theorem mapFind_emplace_absent (m : List (κ × α)) (key : κ) (v : α)
    (h : mapFind m key = none) : mapFind (mapEmplace m key v) key = some v := by
  simp [mapEmplace, h, mapFind]

end MapModel

/-- Number of attempts in the enclave-creation loop
(`kMaxEnclaveCreateAttempts` in `untrusted_sgx.cc`). -/
def kMaxEnclaveCreateAttempts : Nat := 5

/-- The creation retry loop shared by `SgxBackend::Load` and
`SgxEmbeddedBackend::Load`:
`for (int i = 0; i < kMaxEnclaveCreateAttempts; ++i) \x7b
   status = create(...);
   if (status != SGX_INTERNAL_ERROR_ENCLAVE_CREATE_INTERRUPTED) break; \x7d`.
`outcomes i` is the status the native creation call reports on its
`i`-th invocation; the loop body runs while `i < kMaxEnclaveCreateAttempts`,
breaking as soon as an outcome is not the interrupted status.  Returns
the final value of `status` together with the number of creation calls
made.  `fuel` counts the remaining permitted iterations; the loop is
entered with `i = 0` and `fuel = kMaxEnclaveCreateAttempts`. -/
def createEnclaveLoop (outcomes : Nat → SgxStatus) : Nat → Nat → SgxStatus × Nat
  | _, 0 => (.createInterrupted, 0)
  | i, fuel + 1 =>
    let status := outcomes i
    if status = SgxStatus.createInterrupted ∧ i + 1 < kMaxEnclaveCreateAttempts then
      createEnclaveLoop outcomes (i + 1) fuel
    else (status, i + 1)

/-- The creation part of `SgxBackend::Load`: run the bounded retry loop
and fail with the last SGX status unless it is `SGX_SUCCESS`. -/
def SgxBackend.Load (outcomes : Nat → SgxStatus) : Except Status Unit :=
  let r := createEnclaveLoop outcomes 0 kMaxEnclaveCreateAttempts
  if r.1 ≠ SgxStatus.success then
    .error (.sgx r.1 "Failed to create an enclave")
  else .ok ()

/-- Number of creation calls `SgxBackend::Load` makes for a given
outcome oracle. -/
def SgxBackend.LoadAttemptCount (outcomes : Nat → SgxStatus) : Nat :=
  (createEnclaveLoop outcomes 0 kMaxEnclaveCreateAttempts).2

/-- Observable memory-management steps of `SgxEmbeddedBackend::Load`:
reserving the target address range with `mmap(PROT_NONE)` and releasing
it again with `munmap`. -/
inductive LoadAction
  | reserveRange
  | releaseRange
deriving DecidableEq

/-- Outcomes of the opaque calls `SgxEmbeddedBackend::Load` makes, in
program order: whether `mmap` returns the requested base address,
the results of `FileMapping::CreateFromFile`, `ElfReader::CreateFromSpan`
and `ElfReader::GetSectionData`, whether `munmap` succeeds, and the
status of each `sgx_create_enclave_from_buffer_ex` invocation. -/
structure EmbeddedLoadEnv where
  mmapReturnsBase : Bool
  fileMappingResult : Except Status Unit
  elfReaderResult : Except Status Unit
  sectionDataResult : Except Status Unit
  munmapOk : Bool
  createOutcomes : Nat → SgxStatus

/-- The control flow of `SgxEmbeddedBackend::Load` for a fork-style load
request with target `base_address` and `enclave_size` (the null base
pointer is modelled as address 0).  Returns the load result together
with the reserve/release actions performed, in order. -/
def SgxEmbeddedBackend.Load (base_address : Nat) (enclave_size : Nat)
    (env : EmbeddedLoadEnv) : Except Status Unit × List LoadAction :=
  let reserving := base_address ≠ 0 ∧ enclave_size > 0
  let acts : List LoadAction := if reserving then [.reserveRange] else []
  if reserving ∧ env.mmapReturnsBase = false then
    (.error (.google .internal "Failed to reserve enclave memory"), acts)
  else
    match env.fileMappingResult with
    | .error st => (.error st, acts)
    | .ok _ =>
      match env.elfReaderResult with
      | .error st => (.error st, acts)
      | .ok _ =>
        match env.sectionDataResult with
        | .error st => (.error st, acts)
        | .ok _ =>
          let acts := if reserving then acts ++ [.releaseRange] else acts
          if reserving ∧ env.munmapOk = false then
            (.error (.google .internal "Failed to release enclave memory"), acts)
          else
            let r := createEnclaveLoop env.createOutcomes 0 kMaxEnclaveCreateAttempts
            if r.1 ≠ SgxStatus.success then
              (.error (.sgx r.1 "Failed to create an enclave"), acts)
            else (.ok (), acts)

/-- The outcome interpretation of `SgxEnclaveClient::EnclaveCallInternal`:
`transfer` is the `sgx_status_t` returned by `sgx_ecall` and `retval` the
in-enclave return value `ms.ms_retval` written into the marshalling
struct. -/
def SgxEnclaveClient.EnclaveCallInternal (transfer : SgxStatus) (retval : Int) : Status :=
  if transfer ≠ SgxStatus.success then
    .sgx transfer "Call to primitives ecall endpoint failed"
  else if retval ≠ 0 then
    .google .internal "Enclave call failed inside enclave"
  else Status.okStatus

/-- Clients are modelled as natural numbers; 0 stands for the null
pointer. -/
abbrev ClientId : Type := Nat

/-- The signal dispatcher's registry: signal number to owning client
(`signal_to_client_map_`). -/
abbrev SignalMap : Type := List (Int × Nat)

/-- Lookup of the owning client of a signal
(`EnclaveSignalDispatcher::GetClientForSignal`). -/
def EnclaveSignalDispatcher.GetClientForSignal (m : SignalMap) (signum : Int) :
    Except Status Nat :=
  match mapFind m signum with
  | none =>
    .error (.google .invalidArgument ("No enclave has registered signal: " ++ toString signum))
  | some c => .ok c

/-- Install a client as owner of a signal, returning the previous owner
(or `none`) and the updated map
(`EnclaveSignalDispatcher::RegisterSignal`; the surrounding
`sigprocmask` critical section has no effect on the map). -/
def EnclaveSignalDispatcher.RegisterSignal (m : SignalMap) (signum : Int) (client : Nat) :
    Option Nat × SignalMap :=
  let old_client := mapFind m signum
  (old_client, mapAssign m signum client)

/-- The sweep inside `EnclaveSignalDispatcher::DeregisterAllSignalsForClient`:
walk the map, and for each entry owned by `client` call
`signal(signum, SIG_DFL)` — whose failure (`restoreFails signum`)
overwrites the accumulated status but does not stop the sweep — and
erase the entry. -/
def deregisterSweep (client : Nat) (restoreFails : Int → Bool) :
    SignalMap → Status → Status × SignalMap
  | [], st => (st, [])
  | (s, cl) :: rest, st =>
    if cl = client then
      let st2 :=
        if restoreFails s then
          Status.google .invalidArgument
            ("Failed to deregister one or more handlers for signal: " ++ toString s)
        else st
      deregisterSweep client restoreFails rest st2
    else
      let r := deregisterSweep client restoreFails rest st
      (r.1, (s, cl) :: r.2)

/-- Remove every signal mapping owned by a client
(`EnclaveSignalDispatcher::DeregisterAllSignalsForClient`). -/
def EnclaveSignalDispatcher.DeregisterAllSignalsForClient (m : SignalMap) (client : Nat)
    (restoreFails : Int → Bool) : Status × SignalMap :=
  deregisterSweep client restoreFails m Status.okStatus

/-- The `si_code` field of the `siginfo_t` passed to the host signal
handler. -/
structure SigInfo where
  si_code : Int

/-- Number of general-purpose registers in the machine context
(`NGREG` for x86-64 ucontext). -/
def kNGREG : Nat := 23

/-- The machine context (`ucontext_t`): the general-purpose register
file, indexed by register number, with `greg_t` values modelled as
integers. -/
structure UContext where
  gregs : Nat → Int

/-- The `EnclaveSignal` protobuf built by
`EnterEnclaveAndHandleSignal`: signal number, signal code, and the
register snapshot cast to unsigned 64-bit values. -/
structure EnclaveSignal where
  signum : Int
  code : Int
  gregs : List Nat
deriving DecidableEq

/-- Route a signal into the owning enclave
(`EnclaveSignalDispatcher::EnterEnclaveAndHandleSignal`): look up the
owner (invalid-argument error when none), build the `EnclaveSignal`
record and forward it via `client->EnterAndHandleSignal`, whose status
the oracle `handleSignal` supplies.  The second component records which
client (if any) the signal was forwarded to, and with which record. -/
def EnclaveSignalDispatcher.EnterEnclaveAndHandleSignal (m : SignalMap) (signum : Int)
    (info : SigInfo) (ucontext : UContext) (handleSignal : Nat → EnclaveSignal → Status) :
    Status × Option (Nat × EnclaveSignal) :=
  match EnclaveSignalDispatcher.GetClientForSignal m signum with
  | .error st => (st, none)
  | .ok client =>
    let es : EnclaveSignal :=
      { signum := signum
        code := info.si_code
        gregs := (List.range kNGREG).map (fun i => ((ucontext.gregs i) % (2 ^ 64 : Int)).toNat) }
    (handleSignal client es, some (client, es))

/-- The fork sub-record of an SGX load configuration
(`SgxLoadConfig::ForkConfig`): target base address and enclave size.
The null base pointer is address 0. -/
structure ForkConfig where
  base_address : Nat
  enclave_size : Nat
deriving DecidableEq

/-- The SGX extension of a load configuration (`SgxLoadConfig`): an
optional fork config, the debug flag, and an optional embedded-section
name or enclave file path. -/
structure SgxLoadConfig where
  fork_config : Option ForkConfig
  debug : Bool
  embedded_section_name : Option String
  file_enclave_path : Option String
deriving DecidableEq

/-- The part of `EnclaveConfig` the modelled paths read. -/
structure EnclaveConfig where
  enable_fork : Bool
deriving DecidableEq

/-- An `EnclaveLoadConfig` protobuf: enclave name, optional generic
`EnclaveConfig`, and the optional SGX extension. -/
structure EnclaveLoadConfig where
  name : String
  config : Option EnclaveConfig
  sgx_load_config : Option SgxLoadConfig
deriving DecidableEq

/-- The `EnclaveConfig` that `LoadEnclave` works with: the one supplied
in the load config (with host defaults filled in, which leaves
`enable_fork` unchanged), or the default configuration, whose
`enable_fork` is false. -/
def EnclaveLoadConfig.effectiveConfig (lc : EnclaveLoadConfig) : EnclaveConfig :=
  match lc.config with
  | some c => c
  | none => { enable_fork := false }

/-- The base address `LoadEnclave` extracts from the SGX fork config
(null, i.e. 0, when no fork config is present). -/
def EnclaveLoadConfig.forkBaseAddress (lc : EnclaveLoadConfig) : Nat :=
  match lc.sgx_load_config with
  | some s =>
    match s.fork_config with
    | some fc => fc.base_address
    | none => 0
  | none => 0

/-- The three registry maps of the `EnclaveManager`, guarded in the
source by `client_table_lock_`: `client_by_name_`, `name_by_client_` and
`load_config_by_client_`. -/
structure ManagerState where
  client_by_name : List (String × Nat)
  name_by_client : List (Nat × String)
  load_config_by_client : List (Nat × EnclaveLoadConfig)
deriving DecidableEq

/-- Lookup of a client by name (`EnclaveManager::GetClient`); a missing
entry yields the null result. -/
def EnclaveManager.GetClient (mgr : ManagerState) (name : String) : Option Nat :=
  mapFind mgr.client_by_name name

/-- Lookup of a name by client (`EnclaveManager::GetName`); a missing
entry yields the empty view. -/
def EnclaveManager.GetName (mgr : ManagerState) (client : Nat) : String :=
  match mapFind mgr.name_by_client client with
  | some n => n
  | none => ""

/-- Drop the registry reference held under a name
(`EnclaveManager::RemoveEnclaveReference`).  The source reads
`client_by_name_[name].get()` — a default-inserting access whose
default `unique_ptr` holds the null pointer — then erases the name from
`client_by_name_` and the obtained pointer from `name_by_client_`. -/
def EnclaveManager.RemoveEnclaveReference (mgr : ManagerState) (name : String) : ManagerState :=
  let r := mapIndexDefault mgr.client_by_name name 0
  { client_by_name := mapErase r.2 name
    name_by_client := mapErase mgr.name_by_client r.1
    load_config_by_client := mgr.load_config_by_client }

/-- Outcomes of the opaque calls `EnclaveManager::LoadEnclave` makes:
the construction result of `asylo::LoadEnclave(load_config)` (the new
client handle or an error), the status of
`client->EnterAndInitialize(config)`, and the status of the
`client->DestroyEnclave()` performed on the cleanup path (logged,
never propagated). -/
structure LoadOracle where
  construct : Except Status Nat
  initStatus : Status
  destroyStatus : Status

/-- Result of `EnclaveManager::LoadEnclave`: the returned status, the
final registry state, and which of the opaque steps were reached. -/
structure LoadOutcome where
  ret : Status
  mgr : ManagerState
  constructionAttempted : Bool
  initAttempted : Bool
  destroyedAfterInitFailure : Bool
deriving DecidableEq

/-- The part of `EnclaveManager::LoadEnclave(const EnclaveLoadConfig &)`
that runs after the fork adjustment: reject an existing name with an
already-exists error; construct the client; register it in the maps
(the load config only for fork-enabled clients); call
EnterAndInitialize, and on its failure destroy the client and erase it
from every map, returning the EnterAndInitialize status. -/
def EnclaveManager.loadRegisterPhase (mgr1 : ManagerState) (lc : EnclaveLoadConfig)
    (o : LoadOracle) : LoadOutcome :=
  let config := lc.effectiveConfig
  let name := lc.name
  if (mapFind mgr1.client_by_name name).isSome then
    { ret := .google .alreadyExists ("Name already exists: " ++ name)
      mgr := mgr1
      constructionAttempted := false
      initAttempted := false
      destroyedAfterInitFailure := false }
  else
    match o.construct with
    | .error st =>
      { ret := st
        mgr := mgr1
        constructionAttempted := true
        initAttempted := false
        destroyedAfterInitFailure := false }
    | .ok client =>
      let mgr2 : ManagerState :=
        { client_by_name := mapEmplace mgr1.client_by_name name client
          name_by_client := mapEmplace mgr1.name_by_client client name
          load_config_by_client :=
            if config.enable_fork then mapEmplace mgr1.load_config_by_client client lc
            else mgr1.load_config_by_client }
      if (o.initStatus).isOk then
        { ret := o.initStatus
          mgr := mgr2
          constructionAttempted := true
          initAttempted := true
          destroyedAfterInitFailure := false }
      else
        { ret := o.initStatus
          mgr :=
            { client_by_name := mapErase mgr2.client_by_name name
              name_by_client := mapErase mgr2.name_by_client client
              load_config_by_client := mapErase mgr2.load_config_by_client client }
          constructionAttempted := true
          initAttempted := true
          destroyedAfterInitFailure := true }

/-- The fork-adjustment phase of
`EnclaveManager::LoadEnclave(const EnclaveLoadConfig &)`: when fork is
enabled and a fork base address is present (the load is happening in a
just-forked child), the parent registry entry for the name is dropped
before the duplicate-name check and registration phase runs. -/
def EnclaveManager.LoadEnclave (mgr : ManagerState) (lc : EnclaveLoadConfig)
    (o : LoadOracle) : LoadOutcome :=
  EnclaveManager.loadRegisterPhase
    (if lc.effectiveConfig.enable_fork = true ∧ lc.forkBaseAddress ≠ 0 then
      EnclaveManager.RemoveEnclaveReference mgr lc.name
    else mgr) lc o

/-- The teardown steps `EnclaveManager::DestroyEnclave` performs on a
non-null client, in order: EnterAndFinalize (unless skipped), the native
`client->DestroyEnclave()`, and signal deregistration. -/
inductive TeardownAction
  | finalizeEnclave
  | destroyNative
  | deregisterSignals
deriving DecidableEq

/-- Result of `EnclaveManager::DestroyEnclave`: the returned status, the
final registry and signal-map states, and the teardown actions taken in
order. -/
structure DestroyOutcome where
  ret : Status
  mgr : ManagerState
  signals : SignalMap
  actions : List TeardownAction
deriving DecidableEq

/-- The control flow of `EnclaveManager::DestroyEnclave(client,
final_input, skip_finalize)`.  A null client returns OK with no effect.
Otherwise EnterAndFinalize runs unless skipped and its status (default
OK when skipped) is captured; the native destroy and the full signal
deregistration always run, their failures logged but never propagated
(`destroyStatus` and the sweep status are discarded); finally the
registry maps are updated: the name is read with the default-inserting
access `name_by_client_[client]` (empty string for an unregistered
client), that name is erased from `client_by_name_`, and the client is
erased from `name_by_client_` and `load_config_by_client_`.  The
captured finalize status is returned. -/
def EnclaveManager.DestroyEnclave (mgr : ManagerState) (signals : SignalMap)
    (client : Option Nat) (skip_finalize : Bool) (finalizeStatus : Status)
    (destroyStatus : Status) (restoreFails : Int → Bool) : DestroyOutcome :=
  match client with
  | none => { ret := Status.okStatus, mgr := mgr, signals := signals, actions := [] }
  | some c =>
    let finalize_status := if skip_finalize then Status.okStatus else finalizeStatus
    let acts :=
      (if skip_finalize then [] else [TeardownAction.finalizeEnclave]) ++
        [TeardownAction.destroyNative, TeardownAction.deregisterSignals]
    let swept := EnclaveSignalDispatcher.DeregisterAllSignalsForClient signals c restoreFails
    let looked := mapIndexDefault mgr.name_by_client c ""
    { ret := finalize_status
      mgr :=
        { client_by_name := mapErase mgr.client_by_name looked.1
          name_by_client := mapErase looked.2 c
          load_config_by_client := mapErase mgr.load_config_by_client c }
      signals := swept.2
      actions := acts }

/-- The variant held by `EnclaveManagerOptions`: either a full
`HostConfig` (modelled opaquely) or config-server connection attributes. -/
inductive HostConfigInfo
  | hostConfig (data : Nat)
  | serverAttributes (address : String) (timeoutNanos : Int)
deriving DecidableEq

/-- An `EnclaveManagerOptions` value. -/
structure EnclaveManagerOptions where
  host_config_info : HostConfigInfo
deriving DecidableEq

/-- The static state behind `EnclaveManager::Configure` and
`EnclaveManager::Instance`: the `configured_` flag, the stored options,
and the singleton instance pointer (a manager handle, `none` for null). -/
structure ManagerGlobalState where
  configured : Bool
  options : Option EnclaveManagerOptions
  inst : Option Nat
deriving DecidableEq

/-- One-time configuration (`EnclaveManager::Configure`): fails with a
failed-precondition error when an instance already exists; otherwise
replaces the stored options and sets `configured_`. -/
def EnclaveManager.Configure (g : ManagerGlobalState) (options : EnclaveManagerOptions) :
    Status × ManagerGlobalState :=
  if (g.inst).isSome then
    (.google .failedPrecondition
      "Cannot configure the enclave manager after an instance has been created", g)
  else
    (Status.okStatus, { g with options := some options, configured := true })

/-- Singleton accessor (`EnclaveManager::Instance`): returns the
existing instance; otherwise fails with a failed-precondition error when
never configured; otherwise constructs the manager (`construct` models
the allocation result of `new EnclaveManager()`), failing with a
resource-exhausted error when construction yields the null pointer. -/
def EnclaveManager.Instance (g : ManagerGlobalState) (construct : Option Nat) :
    Except Status Nat × ManagerGlobalState :=
  match g.inst with
  | some m => (.ok m, g)
  | none =>
    if g.configured = false then
      (.error (.google .failedPrecondition
        "Cannot create enclave manager instance before it is configured"), g)
    else
      match construct with
      | none =>
        (.error (.google .resourceExhausted
          "Could not create an instance of the enclave manager"),
         { g with inst := none })
      | some m => (.ok m, { g with inst := some m })

/-- Creation-outcome oracle reporting the interrupted status on the
first five calls and success on any later call. -/
def fiveInterruptedThenSuccess : Nat → SgxStatus := fun i =>
  if i < 5 then .createInterrupted else .success

/-- Creation-outcome oracle reporting the interrupted status on the
first four calls and success on any later call. -/
def fourInterruptedThenSuccess : Nat → SgxStatus := fun i =>
  if i < 4 then .createInterrupted else .success

/-- A load configuration describing a fork reload: fork enabled, a
nonzero fork base address, and a file-backed SGX payload. -/
def forkReloadConfig : EnclaveLoadConfig :=
  { name := "a"
    config := some { enable_fork := true }
    sgx_load_config := some
      { fork_config := some { base_address := 4096, enclave_size := 8192 }
        debug := false
        embedded_section_name := none
        file_enclave_path := some "enclave.so" } }

/-- A registry already holding client 1 under the name "a". -/
def registeredA : ManagerState :=
  { client_by_name := [("a", 1)]
    name_by_client := [(1, "a")]
    load_config_by_client := [] }

/-- A load oracle whose construction yields client 2 and whose
EnterAndInitialize and cleanup-destroy calls succeed. -/
def okLoadOracle : LoadOracle :=
  { construct := .ok 2
    initStatus := Status.okStatus
    destroyStatus := Status.okStatus }

theorem mapFind_filter_none {κ α : Type} [DecidableEq κ] (q : κ × α → Bool)
    (m : List (κ × α)) (k : κ) (h : mapFind m k = none) :
    mapFind (m.filter q) k = none := by
  induction m with
  | nil => rfl
  | cons p rest ih =>
    cases p with
    | mk k2 v =>
      by_cases hk : k2 = k
      · simp [mapFind, hk] at h
      · have h2 : mapFind rest k = none := by simpa [mapFind, hk] using h
        by_cases hq : q (k2, v) <;> simp [List.filter, hq, mapFind, hk, ih h2]

theorem mapFind_filter_prop {κ α : Type} [DecidableEq κ] (q : κ × α → Bool)
    (m : List (κ × α)) (k : κ) (v : α) (h : mapFind (m.filter q) k = some v) :
    q (k, v) = true := by
  induction m with
  | nil => simp [mapFind, List.filter] at h
  | cons p rest ih =>
    cases p with
    | mk k2 w =>
      by_cases hq : q (k2, w)
      · by_cases hk : k2 = k
        · subst hk
          have : w = v := by simpa [List.filter, hq, mapFind] using h
          subst this
          exact hq
        · exact ih (by simpa [List.filter, hq, mapFind, hk] using h)
      · exact ih (by simpa [List.filter, hq] using h)

theorem deregisterSweep_map (client : Nat) (restoreFails : Int → Bool)
    (m : SignalMap) (st : Status) :
    (deregisterSweep client restoreFails m st).2 =
      m.filter (fun p => decide (p.2 ≠ client)) := by
  induction m generalizing st with
  | nil => rfl
  | cons p rest ih =>
    cases p with
    | mk s cl =>
      by_cases hc : cl = client <;>
        simp [deregisterSweep, List.filter, hc, ih]

theorem createEnclaveLoop_spec (outcomes : Nat → SgxStatus) :
    createEnclaveLoop outcomes 0 kMaxEnclaveCreateAttempts =
      if outcomes 0 ≠ SgxStatus.createInterrupted then (outcomes 0, 1)
      else if outcomes 1 ≠ SgxStatus.createInterrupted then (outcomes 1, 2)
      else if outcomes 2 ≠ SgxStatus.createInterrupted then (outcomes 2, 3)
      else if outcomes 3 ≠ SgxStatus.createInterrupted then (outcomes 3, 4)
      else (outcomes 4, 5) := by
  by_cases h0 : outcomes 0 = SgxStatus.createInterrupted <;>
    by_cases h1 : outcomes 1 = SgxStatus.createInterrupted <;>
      by_cases h2 : outcomes 2 = SgxStatus.createInterrupted <;>
        by_cases h3 : outcomes 3 = SgxStatus.createInterrupted <;>
          simp [createEnclaveLoop, kMaxEnclaveCreateAttempts, h0, h1, h2, h3]

/-- C1 counterexample: with a creation oracle whose first five outcomes
are the interrupted status and whose sixth outcome would be success, the
load fails with the interrupted status after exactly five creation
calls — the sixth, successful outcome is never consumed, contradicting
the claim that five interrupted outcomes followed by a sixth success
yield overall success. -/
theorem c1_counterexample :
    SgxBackend.Load fiveInterruptedThenSuccess =
      .error (.sgx .createInterrupted "Failed to create an enclave") ∧
    SgxBackend.LoadAttemptCount fiveInterruptedThenSuccess = 5 ∧
    fiveInterruptedThenSuccess 5 = SgxStatus.success := by
  refine ⟨rfl, rfl, rfl⟩

/-- C1 (amended): native region creation makes at most 5 creation calls
in total, retrying only while the call reports the transient
interrupted status and terminating immediately on any other status;
five consecutive interrupted outcomes yield final failure with the
interrupted status after exactly five calls, regardless of what any
further call would return; four interrupted outcomes followed by a
fifth success yield overall success. -/
theorem c1_bounded_retry (outcomes : Nat → SgxStatus) :
    SgxBackend.LoadAttemptCount outcomes ≤ kMaxEnclaveCreateAttempts ∧
    (∀ j : Nat, j < kMaxEnclaveCreateAttempts →
      (∀ k, k < j → outcomes k = SgxStatus.createInterrupted) →
      outcomes j ≠ SgxStatus.createInterrupted →
      SgxBackend.LoadAttemptCount outcomes = j + 1 ∧
      SgxBackend.Load outcomes =
        (if outcomes j = SgxStatus.success then .ok ()
         else .error (.sgx (outcomes j) "Failed to create an enclave"))) ∧
    ((∀ k, k < kMaxEnclaveCreateAttempts → outcomes k = SgxStatus.createInterrupted) →
      SgxBackend.Load outcomes =
        .error (.sgx .createInterrupted "Failed to create an enclave") ∧
      SgxBackend.LoadAttemptCount outcomes = kMaxEnclaveCreateAttempts) ∧
    ((∀ k, k < 4 → outcomes k = SgxStatus.createInterrupted) →
      outcomes 4 = SgxStatus.success →
      SgxBackend.Load outcomes = .ok ()) := by
  have hspec := createEnclaveLoop_spec outcomes
  refine ⟨?_, ?_, ?_, ?_⟩
  · unfold SgxBackend.LoadAttemptCount
    rw [hspec]
    by_cases h0 : outcomes 0 = SgxStatus.createInterrupted <;>
      by_cases h1 : outcomes 1 = SgxStatus.createInterrupted <;>
        by_cases h2 : outcomes 2 = SgxStatus.createInterrupted <;>
          by_cases h3 : outcomes 3 = SgxStatus.createInterrupted <;>
            simp [kMaxEnclaveCreateAttempts, h0, h1, h2, h3]
  · intro j hj hk hjne
    unfold SgxBackend.LoadAttemptCount SgxBackend.Load
    rw [hspec]
    have hj5 : j < 5 := by simpa [kMaxEnclaveCreateAttempts] using hj
    interval_cases j
    · constructor <;> simp [hjne]
    · have e0 := hk 0 (by norm_num)
      constructor <;> simp [e0, hjne]
    · have e0 := hk 0 (by norm_num)
      have e1 := hk 1 (by norm_num)
      constructor <;> simp [e0, e1, hjne]
    · have e0 := hk 0 (by norm_num)
      have e1 := hk 1 (by norm_num)
      have e2 := hk 2 (by norm_num)
      constructor <;> simp [e0, e1, e2, hjne]
    · have e0 := hk 0 (by norm_num)
      have e1 := hk 1 (by norm_num)
      have e2 := hk 2 (by norm_num)
      have e3 := hk 3 (by norm_num)
      constructor <;> simp [e0, e1, e2, e3, hjne]
  · intro hall
    have e0 := hall 0 (by decide)
    have e1 := hall 1 (by decide)
    have e2 := hall 2 (by decide)
    have e3 := hall 3 (by decide)
    have e4 := hall 4 (by decide)
    unfold SgxBackend.LoadAttemptCount SgxBackend.Load
    rw [hspec]
    constructor <;> simp [kMaxEnclaveCreateAttempts, e0, e1, e2, e3, e4]
  · intro hall h4
    have e0 := hall 0 (by norm_num)
    have e1 := hall 1 (by norm_num)
    have e2 := hall 2 (by norm_num)
    have e3 := hall 3 (by norm_num)
    unfold SgxBackend.Load
    rw [hspec]
    simp [e0, e1, e2, e3, h4]

/-- Witness for `c1_bounded_retry`: applied to the concrete oracles with
four (resp. five) leading interrupted outcomes, discharging the
hypotheses there. -/
theorem c1_bounded_retry_witness :
    SgxBackend.Load fourInterruptedThenSuccess = .ok () ∧
    SgxBackend.Load fiveInterruptedThenSuccess =
      .error (.sgx .createInterrupted "Failed to create an enclave") := by
  constructor
  · exact (c1_bounded_retry fourInterruptedThenSuccess).2.2.2
      (by decide) (by decide)
  · exact ((c1_bounded_retry fiveInterruptedThenSuccess).2.2.1
      (by decide)).1

theorem mapFind_eq_none_of_not_mem_keys {κ α : Type} [DecidableEq κ]
    (m : List (κ × α)) (k : κ) (h : k ∉ m.map Prod.fst) : mapFind m k = none := by
  induction m with
  | nil => rfl
  | cons p rest ih =>
    cases p with
    | mk k2 v =>
      have hk : ¬ k2 = k := by
        intro hc
        exact h (by simp [hc])
      have : k ∉ rest.map Prod.fst := fun hc => h (by simp [hc])
      simp [mapFind, hk, ih this]

theorem mapFind_filter_eq_none_of_nodup {κ α : Type} [DecidableEq κ]
    (q : κ × α → Bool) (m : List (κ × α)) (k : κ) (v : α)
    (hnd : (m.map Prod.fst).Nodup) (h : mapFind m k = some v) (hq : q (k, v) = false) :
    mapFind (m.filter q) k = none := by
  induction m with
  | nil => simp [mapFind] at h
  | cons p rest ih =>
    cases p with
    | mk k2 w =>
      have hnd2 : (rest.map Prod.fst).Nodup := (List.nodup_cons.mp hnd).2
      by_cases hk : k2 = k
      · subst hk
        have hw : w = v := by simpa [mapFind] using h
        subst hw
        have hrest : mapFind rest k2 = none :=
          mapFind_eq_none_of_not_mem_keys rest k2 (List.nodup_cons.mp hnd).1
        simp [List.filter, hq, mapFind_filter_none q rest k2 hrest]
      · have h2 : mapFind rest k = some v := by simpa [mapFind, hk] using h
        by_cases hqp : q (k2, w) <;>
          simp [List.filter, hqp, mapFind, hk, ih hnd2 h2]

/-- C8: a boundary call through the trusted-call bridge fails in the SGX
error space exactly when the transfer itself fails, fails in the Google
error space (internal error) when the transfer succeeds but the
in-region return code is nonzero — the two failure kinds live in
distinct error spaces and are never conflated — and succeeds exactly
when the transfer succeeds and the in-region return code is zero. -/
theorem c8_call_error_domains (transfer : SgxStatus) (retval : Int) :
    (transfer ≠ SgxStatus.success →
      SgxEnclaveClient.EnclaveCallInternal transfer retval =
        .sgx transfer "Call to primitives ecall endpoint failed" ∧
      (SgxEnclaveClient.EnclaveCallInternal transfer retval).space = ErrorSpace.sgxSpace) ∧
    (transfer = SgxStatus.success → retval ≠ 0 →
      SgxEnclaveClient.EnclaveCallInternal transfer retval =
        .google .internal "Enclave call failed inside enclave" ∧
      (SgxEnclaveClient.EnclaveCallInternal transfer retval).space = ErrorSpace.googleSpace) ∧
    ((SgxEnclaveClient.EnclaveCallInternal transfer retval).isOk = true ↔
      transfer = SgxStatus.success ∧ retval = 0) := by
  by_cases ht : transfer = SgxStatus.success <;>
    by_cases hr : retval = 0 <;>
      simp [SgxEnclaveClient.EnclaveCallInternal, Status.space, Status.isOk,
        Status.okStatus, ht, hr]

/-- Witness for `c8_call_error_domains` at concrete transfer statuses
and return codes. -/
theorem c8_call_error_domains_witness :
    SgxEnclaveClient.EnclaveCallInternal (.otherError 1) 0 =
      .sgx (.otherError 1) "Call to primitives ecall endpoint failed" ∧
    SgxEnclaveClient.EnclaveCallInternal .success 1 =
      .google .internal "Enclave call failed inside enclave" ∧
    (SgxEnclaveClient.EnclaveCallInternal .success 0).isOk = true :=
  ⟨((c8_call_error_domains (.otherError 1) 0).1 (by decide)).1,
   ((c8_call_error_domains .success 1).2.1 rfl (by decide)).1,
   ((c8_call_error_domains .success 0).2.2).mpr ⟨rfl, rfl⟩⟩

/-- C6: RegisterSignal installs the client as the owner of the signal
and returns the previous owner (or none); after RegisterSignal(11, A)
followed by RegisterSignal(11, B) the second call returns A, and a
subsequent dispatch of signal 11 routes to B and never to A. -/
theorem c6_register_signal_chain (m : SignalMap) (A B : Nat) (hAB : A ≠ B)
    (info : SigInfo) (ctx : UContext) (handle : Nat → EnclaveSignal → Status) :
    (∀ signum client,
      (EnclaveSignalDispatcher.RegisterSignal m signum client).1 = mapFind m signum ∧
      mapFind (EnclaveSignalDispatcher.RegisterSignal m signum client).2 signum = some client) ∧
    (EnclaveSignalDispatcher.RegisterSignal
      (EnclaveSignalDispatcher.RegisterSignal m 11 A).2 11 B).1 = some A ∧
    EnclaveSignalDispatcher.GetClientForSignal
      (EnclaveSignalDispatcher.RegisterSignal
        (EnclaveSignalDispatcher.RegisterSignal m 11 A).2 11 B).2 11 = .ok B ∧
    (EnclaveSignalDispatcher.EnterEnclaveAndHandleSignal
      (EnclaveSignalDispatcher.RegisterSignal
        (EnclaveSignalDispatcher.RegisterSignal m 11 A).2 11 B).2 11 info ctx handle).2.map
      Prod.fst = some B ∧
    (EnclaveSignalDispatcher.EnterEnclaveAndHandleSignal
      (EnclaveSignalDispatcher.RegisterSignal
        (EnclaveSignalDispatcher.RegisterSignal m 11 A).2 11 B).2 11 info ctx handle).2.map
      Prod.fst ≠ some A := by
  have hfind : mapFind (EnclaveSignalDispatcher.RegisterSignal
      (EnclaveSignalDispatcher.RegisterSignal m 11 A).2 11 B).2 11 = some B := by
    simp [EnclaveSignalDispatcher.RegisterSignal, mapFind_assign_self]
  refine ⟨fun s c => ⟨rfl, mapFind_assign_self m s c⟩, ?_, ?_, ?_, ?_⟩
  · simp [EnclaveSignalDispatcher.RegisterSignal, mapFind_assign_self]
  · simp [EnclaveSignalDispatcher.GetClientForSignal, hfind]
  · simp [EnclaveSignalDispatcher.EnterEnclaveAndHandleSignal,
      EnclaveSignalDispatcher.GetClientForSignal, hfind]
  · simp [EnclaveSignalDispatcher.EnterEnclaveAndHandleSignal,
      EnclaveSignalDispatcher.GetClientForSignal, hfind]
    exact fun hc => hAB hc.symm

/-- Witness for `c6_register_signal_chain` on the empty signal map with
clients 1 and 2. -/
theorem c6_register_signal_chain_witness :
    (EnclaveSignalDispatcher.RegisterSignal
      (EnclaveSignalDispatcher.RegisterSignal [] 11 1).2 11 2).1 = some 1 ∧
    EnclaveSignalDispatcher.GetClientForSignal
      (EnclaveSignalDispatcher.RegisterSignal
        (EnclaveSignalDispatcher.RegisterSignal [] 11 1).2 11 2).2 11 = .ok 2 :=
  ⟨(c6_register_signal_chain [] 1 2 (by decide) ⟨0⟩ ⟨fun _ => 0⟩ fun _ _ => Status.okStatus).2.1,
   (c6_register_signal_chain [] 1 2 (by decide) ⟨0⟩ ⟨fun _ => 0⟩ fun _ _ => Status.okStatus).2.2.1⟩

/-- C7: DeregisterAllSignalsForClient removes exactly the signal
mappings owned by the client — the sweep runs to completion regardless
of individual restoration failures — and afterwards no dispatch can
reach that client; for a registry with unique signal numbers, any
signal previously owned by the client now fails dispatch with an
invalid-argument error, and in particular RegisterSignal(11, X) then
DeregisterAllSignalsForClient(X) then EnterEnclaveAndHandleSignal(11,
info, ctx) fails with an invalid-argument error and forwards to no
client. -/
theorem c7_deregister_then_dispatch (m : SignalMap) (X : Nat) (restoreFails : Int → Bool)
    (info : SigInfo) (ctx : UContext) (handle : Nat → EnclaveSignal → Status) :
    ((EnclaveSignalDispatcher.DeregisterAllSignalsForClient m X restoreFails).2 =
      m.filter (fun p => decide (p.2 ≠ X))) ∧
    (∀ s v, mapFind
        (EnclaveSignalDispatcher.DeregisterAllSignalsForClient m X restoreFails).2 s =
          some v → v ≠ X) ∧
    ((m.map Prod.fst).Nodup → ∀ s, mapFind m s = some X →
      (EnclaveSignalDispatcher.EnterEnclaveAndHandleSignal
        (EnclaveSignalDispatcher.DeregisterAllSignalsForClient m X restoreFails).2
        s info ctx handle).1.googleCode = some GoogleError.invalidArgument) ∧
    (EnclaveSignalDispatcher.EnterEnclaveAndHandleSignal
      (EnclaveSignalDispatcher.DeregisterAllSignalsForClient
        (EnclaveSignalDispatcher.RegisterSignal m 11 X).2 X restoreFails).2
      11 info ctx handle).1.googleCode = some GoogleError.invalidArgument ∧
    (EnclaveSignalDispatcher.EnterEnclaveAndHandleSignal
      (EnclaveSignalDispatcher.DeregisterAllSignalsForClient
        (EnclaveSignalDispatcher.RegisterSignal m 11 X).2 X restoreFails).2
      11 info ctx handle).2 = none := by
  have hmap : ∀ m2 : SignalMap,
      (EnclaveSignalDispatcher.DeregisterAllSignalsForClient m2 X restoreFails).2 =
        m2.filter (fun p => decide (p.2 ≠ X)) := fun m2 =>
    deregisterSweep_map X restoreFails m2 Status.okStatus
  have hscenario : mapFind
      (EnclaveSignalDispatcher.DeregisterAllSignalsForClient
        (EnclaveSignalDispatcher.RegisterSignal m 11 X).2 X restoreFails).2 11 = none := by
    rw [hmap]
    have : (EnclaveSignalDispatcher.RegisterSignal m 11 X).2 =
        (11, X) :: mapErase m 11 := rfl
    rw [this]
    have hrest : mapFind (mapErase m 11) (11 : Int) = none := mapFind_erase_self m 11
    simp [List.filter, mapFind_filter_none _ (mapErase m 11) (11 : Int) hrest]
  refine ⟨hmap m, ?_, ?_, ?_, ?_⟩
  · intro s v hv
    rw [hmap m] at hv
    have := mapFind_filter_prop _ m s v hv
    simpa using this
  · intro hnd s hs
    have hnone : mapFind
        (EnclaveSignalDispatcher.DeregisterAllSignalsForClient m X restoreFails).2 s = none := by
      rw [hmap m]
      exact mapFind_filter_eq_none_of_nodup _ m s X hnd hs (by simp)
    simp [EnclaveSignalDispatcher.EnterEnclaveAndHandleSignal,
      EnclaveSignalDispatcher.GetClientForSignal, hnone, Status.googleCode]
  · simp [EnclaveSignalDispatcher.EnterEnclaveAndHandleSignal,
      EnclaveSignalDispatcher.GetClientForSignal, hscenario, Status.googleCode]
  · simp [EnclaveSignalDispatcher.EnterEnclaveAndHandleSignal,
      EnclaveSignalDispatcher.GetClientForSignal, hscenario]

/-- Witness for `c7_deregister_then_dispatch`: register signal 11 to
client 3 on a one-entry registry, deregister all of client 3's signals
with a failing restoration, then dispatch of signal 11 fails with an
invalid-argument error. -/
theorem c7_deregister_then_dispatch_witness :
    (EnclaveSignalDispatcher.EnterEnclaveAndHandleSignal
      (EnclaveSignalDispatcher.DeregisterAllSignalsForClient
        (EnclaveSignalDispatcher.RegisterSignal [(7, 4)] 11 3).2 3 (fun _ => true)).2
      11 ⟨0⟩ ⟨fun _ => 0⟩ (fun _ _ => Status.okStatus)).1.googleCode =
      some GoogleError.invalidArgument ∧
    (EnclaveSignalDispatcher.EnterEnclaveAndHandleSignal
      (EnclaveSignalDispatcher.DeregisterAllSignalsForClient [(7, 4), (11, 3)] 3
        (fun _ => true)).2 11 ⟨0⟩ ⟨fun _ => 0⟩ (fun _ _ => Status.okStatus)).1.googleCode =
      some GoogleError.invalidArgument :=
  ⟨(c7_deregister_then_dispatch [(7, 4)] 3 (fun _ => true) ⟨0⟩ ⟨fun _ => 0⟩
      (fun _ _ => Status.okStatus)).2.2.2.1,
   (c7_deregister_then_dispatch [(7, 4), (11, 3)] 3 (fun _ => true) ⟨0⟩ ⟨fun _ => 0⟩
      (fun _ _ => Status.okStatus)).2.2.1 (by decide) 11 (by decide)⟩

theorem loadRegisterPhase_init_failure (mgr1 : ManagerState) (lc : EnclaveLoadConfig)
    (o : LoadOracle) (client : Nat) (hc : o.construct = .ok client)
    (hi : (o.initStatus).isOk = false)
    (hr : (EnclaveManager.loadRegisterPhase mgr1 lc o).constructionAttempted = true) :
    (EnclaveManager.loadRegisterPhase mgr1 lc o).ret = o.initStatus ∧
    (EnclaveManager.loadRegisterPhase mgr1 lc o).destroyedAfterInitFailure = true ∧
    EnclaveManager.GetClient (EnclaveManager.loadRegisterPhase mgr1 lc o).mgr lc.name = none ∧
    mapFind (EnclaveManager.loadRegisterPhase mgr1 lc o).mgr.name_by_client client = none ∧
    mapFind (EnclaveManager.loadRegisterPhase mgr1 lc o).mgr.load_config_by_client client =
      none := by
  by_cases hcol : (mapFind mgr1.client_by_name lc.name).isSome
  · exfalso
    simp [EnclaveManager.loadRegisterPhase, hcol] at hr
  · simp only [EnclaveManager.loadRegisterPhase, hcol, if_false, hc, hi,
      Bool.false_eq_true, EnclaveManager.GetClient]
    exact ⟨trivial, trivial, mapFind_erase_self _ _, mapFind_erase_self _ _,
      mapFind_erase_self _ _⟩

/-- C2: whenever `EnclaveManager::LoadEnclave` reaches construction, the
construction succeeds, and EnterAndInitialize fails, LoadEnclave
destroys the new client and removes it from all three registry maps
before returning the EnterAndInitialize status, so a subsequent
GetClient with that name yields the empty result and no registration
persists. -/
theorem c2_init_failure_cleanup (mgr : ManagerState) (lc : EnclaveLoadConfig)
    (o : LoadOracle) (client : Nat) (hc : o.construct = .ok client)
    (hi : (o.initStatus).isOk = false)
    (hr : (EnclaveManager.LoadEnclave mgr lc o).constructionAttempted = true) :
    (EnclaveManager.LoadEnclave mgr lc o).ret = o.initStatus ∧
    (EnclaveManager.LoadEnclave mgr lc o).destroyedAfterInitFailure = true ∧
    EnclaveManager.GetClient (EnclaveManager.LoadEnclave mgr lc o).mgr lc.name = none ∧
    mapFind (EnclaveManager.LoadEnclave mgr lc o).mgr.name_by_client client = none ∧
    mapFind (EnclaveManager.LoadEnclave mgr lc o).mgr.load_config_by_client client = none :=
  loadRegisterPhase_init_failure _ lc o client hc hi hr

/-- Witness for `c2_init_failure_cleanup`: loading "a" into an empty
registry with a construction yielding client 2 and a failing
EnterAndInitialize. -/
theorem c2_init_failure_cleanup_witness :
    (EnclaveManager.LoadEnclave ⟨[], [], []⟩
      { name := "a", config := none, sgx_load_config := none }
      { construct := .ok 2, initStatus := Status.google .internal "init failed",
        destroyStatus := Status.okStatus }).ret = Status.google .internal "init failed" ∧
    EnclaveManager.GetClient
      (EnclaveManager.LoadEnclave ⟨[], [], []⟩
        { name := "a", config := none, sgx_load_config := none }
        { construct := .ok 2, initStatus := Status.google .internal "init failed",
          destroyStatus := Status.okStatus }).mgr "a" = none := by
  have h := c2_init_failure_cleanup ⟨[], [], []⟩
    { name := "a", config := none, sgx_load_config := none }
    { construct := .ok 2, initStatus := Status.google .internal "init failed",
      destroyStatus := Status.okStatus } 2 rfl rfl (by decide)
  exact ⟨h.1, h.2.2.1⟩

/-- C5 counterexample: with the name "a" already registered (client 1),
a LoadEnclave for "a" whose configuration enables fork and carries a
fork base address does not fail with an already-exists error: the
parent entry is unregistered first, native construction is attempted,
the load succeeds, and the original client is no longer registered —
refuting the claim for such load requests. -/
theorem c5_counterexample :
    EnclaveManager.GetClient registeredA "a" = some 1 ∧
    (EnclaveManager.LoadEnclave registeredA forkReloadConfig okLoadOracle).constructionAttempted
      = true ∧
    (EnclaveManager.LoadEnclave registeredA forkReloadConfig okLoadOracle).ret =
      Status.okStatus ∧
    EnclaveManager.GetClient
      (EnclaveManager.LoadEnclave registeredA forkReloadConfig okLoadOracle).mgr "a" =
      some 2 := by
  refine ⟨rfl, rfl, rfl, rfl⟩

/-- C5 (amended): for every name already present in the registry, a
second LoadEnclave under that name whose configuration does not request
a fork reload (fork enabled together with a fork base address) fails
with an already-exists error before any native construction is
attempted, the registry is left unchanged, and the originally
registered client remains registered. -/
theorem c5_no_fork_collision (mgr : ManagerState) (lc : EnclaveLoadConfig)
    (o : LoadOracle) (d : Nat) (hreg : EnclaveManager.GetClient mgr lc.name = some d)
    (hnf : ¬(lc.effectiveConfig.enable_fork = true ∧ lc.forkBaseAddress ≠ 0)) :
    (EnclaveManager.LoadEnclave mgr lc o).ret =
      .google .alreadyExists ("Name already exists: " ++ lc.name) ∧
    (EnclaveManager.LoadEnclave mgr lc o).constructionAttempted = false ∧
    (EnclaveManager.LoadEnclave mgr lc o).mgr = mgr ∧
    EnclaveManager.GetClient (EnclaveManager.LoadEnclave mgr lc o).mgr lc.name = some d := by
  have hsome : (mapFind mgr.client_by_name lc.name).isSome := by
    unfold EnclaveManager.GetClient at hreg
    simp [hreg]
  simp only [EnclaveManager.LoadEnclave, hnf, if_false]
  simp only [EnclaveManager.loadRegisterPhase, hsome, if_true]
  exact ⟨trivial, trivial, trivial, hreg⟩

/-- Witness for `c5_no_fork_collision`: a second load of "a" with a
plain (non-fork) file-backed configuration against a registry already
holding client 1 under "a". -/
theorem c5_no_fork_collision_witness :
    (EnclaveManager.LoadEnclave registeredA
      { name := "a", config := none,
        sgx_load_config := some
          { fork_config := none, debug := false, embedded_section_name := none,
            file_enclave_path := some "enclave.so" } } okLoadOracle).constructionAttempted
      = false ∧
    EnclaveManager.GetClient
      (EnclaveManager.LoadEnclave registeredA
        { name := "a", config := none,
          sgx_load_config := some
            { fork_config := none, debug := false, embedded_section_name := none,
              file_enclave_path := some "enclave.so" } } okLoadOracle).mgr "a" = some 1 := by
  have h := c5_no_fork_collision registeredA
    { name := "a", config := none,
      sgx_load_config := some
        { fork_config := none, debug := false, embedded_section_name := none,
          file_enclave_path := some "enclave.so" } } okLoadOracle 1 rfl (by decide)
  exact ⟨h.2.1, h.2.2.2⟩

/-- C3: DestroyEnclave on a null client returns success with no effect;
on a non-null client it captures the Finalize status (default OK when
finalize is skipped), always performs the native destroy and the full
signal deregistration next — in that order — always removes the client
from every registry map, no signal can route to the client afterwards,
and the returned value is exactly the captured Finalize status,
independent of the destroy status and of restoration failures (neither
occurs in the returned value). -/
theorem c3_destroy_teardown (mgr : ManagerState) (signals : SignalMap) (c : Nat)
    (skip_finalize : Bool) (finalizeStatus destroyStatus : Status)
    (restoreFails : Int → Bool) :
    (EnclaveManager.DestroyEnclave mgr signals none skip_finalize finalizeStatus
        destroyStatus restoreFails =
      { ret := Status.okStatus, mgr := mgr, signals := signals, actions := [] }) ∧
    ((EnclaveManager.DestroyEnclave mgr signals (some c) skip_finalize finalizeStatus
        destroyStatus restoreFails).ret =
      (if skip_finalize then Status.okStatus else finalizeStatus)) ∧
    ((EnclaveManager.DestroyEnclave mgr signals (some c) skip_finalize finalizeStatus
        destroyStatus restoreFails).actions =
      (if skip_finalize then [] else [TeardownAction.finalizeEnclave]) ++
        [TeardownAction.destroyNative, TeardownAction.deregisterSignals]) ∧
    TeardownAction.destroyNative ∈
      (EnclaveManager.DestroyEnclave mgr signals (some c) skip_finalize finalizeStatus
        destroyStatus restoreFails).actions ∧
    TeardownAction.deregisterSignals ∈
      (EnclaveManager.DestroyEnclave mgr signals (some c) skip_finalize finalizeStatus
        destroyStatus restoreFails).actions ∧
    (TeardownAction.finalizeEnclave ∈
      (EnclaveManager.DestroyEnclave mgr signals (some c) skip_finalize finalizeStatus
        destroyStatus restoreFails).actions ↔ skip_finalize = false) ∧
    mapFind (EnclaveManager.DestroyEnclave mgr signals (some c) skip_finalize finalizeStatus
      destroyStatus restoreFails).mgr.name_by_client c = none ∧
    mapFind (EnclaveManager.DestroyEnclave mgr signals (some c) skip_finalize finalizeStatus
      destroyStatus restoreFails).mgr.load_config_by_client c = none ∧
    (∀ n, mapFind mgr.name_by_client c = some n →
      mapFind (EnclaveManager.DestroyEnclave mgr signals (some c) skip_finalize
        finalizeStatus destroyStatus restoreFails).mgr.client_by_name n = none) ∧
    (∀ s v, mapFind (EnclaveManager.DestroyEnclave mgr signals (some c) skip_finalize
        finalizeStatus destroyStatus restoreFails).signals s = some v → v ≠ c) := by
  refine ⟨rfl, rfl, rfl, ?_, ?_, ?_, mapFind_erase_self _ _, mapFind_erase_self _ _,
    ?_, ?_⟩
  · cases skip_finalize <;> simp [EnclaveManager.DestroyEnclave]
  · cases skip_finalize <;> simp [EnclaveManager.DestroyEnclave]
  · cases skip_finalize <;> simp [EnclaveManager.DestroyEnclave]
  · intro n hn
    show mapFind (mapErase mgr.client_by_name
      (mapIndexDefault mgr.name_by_client c "").1) n = none
    simp only [mapIndexDefault, hn]
    exact mapFind_erase_self _ _
  · intro s v hv
    have hv2 : mapFind (signals.filter (fun p => decide (p.2 ≠ c))) s = some v := by
      have hsw := deregisterSweep_map c restoreFails signals Status.okStatus
      simpa [EnclaveManager.DestroyEnclave,
        EnclaveSignalDispatcher.DeregisterAllSignalsForClient, hsw] using hv
    have := mapFind_filter_prop _ signals s v hv2
    simpa using this

/-- Witness for `c3_destroy_teardown`: destroying registered client 1
with a failing Finalize, a failing native destroy and failing signal
restorations still removes every trace and returns the Finalize
status. -/
theorem c3_destroy_teardown_witness :
    (EnclaveManager.DestroyEnclave registeredA [(11, 1)] (some 1) false
      (Status.google .internal "finalize failed")
      (Status.sgx (.otherError 3) "Failed to destroy enclave") (fun _ => true)).ret =
      Status.google .internal "finalize failed" ∧
    TeardownAction.destroyNative ∈
      (EnclaveManager.DestroyEnclave registeredA [(11, 1)] (some 1) false
        (Status.google .internal "finalize failed")
        (Status.sgx (.otherError 3) "Failed to destroy enclave") (fun _ => true)).actions ∧
    mapFind (EnclaveManager.DestroyEnclave registeredA [(11, 1)] (some 1) false
      (Status.google .internal "finalize failed")
      (Status.sgx (.otherError 3) "Failed to destroy enclave")
      (fun _ => true)).mgr.client_by_name "a" = none := by
  have h := c3_destroy_teardown registeredA [(11, 1)] 1 false
    (Status.google .internal "finalize failed")
    (Status.sgx (.otherError 3) "Failed to destroy enclave") (fun _ => true)
  exact ⟨h.2.1, h.2.2.2.1, h.2.2.2.2.2.2.2.2.1 "a" rfl⟩

/-- C9: destroying a non-null client that is not a key of
`name_by_client_` looks its name up with the default-inserting map
access, obtaining the empty string, and then erases the empty-string
entry from `client_by_name_` — so any unrelated client registered under
the empty name is removed. -/
theorem c9_unregistered_destroy (mgr : ManagerState) (signals : SignalMap) (c : Nat)
    (skip_finalize : Bool) (finalizeStatus destroyStatus : Status)
    (restoreFails : Int → Bool) (h : mapFind mgr.name_by_client c = none) :
    (EnclaveManager.DestroyEnclave mgr signals (some c) skip_finalize finalizeStatus
      destroyStatus restoreFails).mgr.client_by_name = mapErase mgr.client_by_name "" ∧
    (∀ d, mapFind mgr.client_by_name "" = some d →
      mapFind (EnclaveManager.DestroyEnclave mgr signals (some c) skip_finalize
        finalizeStatus destroyStatus restoreFails).mgr.client_by_name "" = none) := by
  have hcbn : (EnclaveManager.DestroyEnclave mgr signals (some c) skip_finalize
      finalizeStatus destroyStatus restoreFails).mgr.client_by_name =
      mapErase mgr.client_by_name "" := by
    show mapErase mgr.client_by_name (mapIndexDefault mgr.name_by_client c "").1 =
      mapErase mgr.client_by_name ""
    simp only [mapIndexDefault, h]
  refine ⟨hcbn, fun d _ => ?_⟩
  rw [hcbn]
  exact mapFind_erase_self _ _

/-- Witness for `c9_unregistered_destroy`: destroying the unregistered
client 5 against a registry whose only entry is client 7 under the
empty name removes that unrelated entry. -/
theorem c9_unregistered_destroy_witness :
    (EnclaveManager.DestroyEnclave ⟨[("", 7)], [(7, "")], []⟩ [] (some 5) false
      Status.okStatus Status.okStatus (fun _ => false)).mgr.client_by_name =
      mapErase [("", 7)] "" ∧
    mapFind (EnclaveManager.DestroyEnclave ⟨[("", 7)], [(7, "")], []⟩ [] (some 5) false
      Status.okStatus Status.okStatus (fun _ => false)).mgr.client_by_name "" = none := by
  have h := c9_unregistered_destroy ⟨[("", 7)], [(7, "")], []⟩ [] 5 false
    Status.okStatus Status.okStatus (fun _ => false) rfl
  exact ⟨h.1, h.2 7 rfl⟩

/-- C4: Configure fails with a failed-precondition error exactly when an
instance already exists and otherwise installs the options; Instance
returns an existing singleton, fails with a failed-precondition error
when never configured, fails with a resource-exhausted error when
construction yields null, and otherwise constructs and caches the
singleton; in particular after Configure and a successful Instance, a
further Configure fails with a failed-precondition (ordering) error. -/
theorem c4_configure_once (g : ManagerGlobalState) (opts : EnclaveManagerOptions)
    (construct : Option Nat) :
    ((g.inst).isSome = true →
      EnclaveManager.Configure g opts =
        (.google .failedPrecondition
          "Cannot configure the enclave manager after an instance has been created", g)) ∧
    (g.inst = none →
      EnclaveManager.Configure g opts =
        (Status.okStatus, { g with options := some opts, configured := true })) ∧
    (∀ m, g.inst = some m → EnclaveManager.Instance g construct = (.ok m, g)) ∧
    (g.inst = none → g.configured = false →
      EnclaveManager.Instance g construct =
        (.error (.google .failedPrecondition
          "Cannot create enclave manager instance before it is configured"), g)) ∧
    (g.inst = none → g.configured = true → construct = none →
      (EnclaveManager.Instance g construct).1 =
        .error (.google .resourceExhausted
          "Could not create an instance of the enclave manager")) ∧
    (∀ m, g.inst = none → g.configured = true → construct = some m →
      EnclaveManager.Instance g construct = (.ok m, { g with inst := some m })) ∧
    (∀ m, g.inst = none → construct = some m →
      (EnclaveManager.Instance (EnclaveManager.Configure g opts).2 construct).1 = .ok m ∧
      ((EnclaveManager.Configure
        (EnclaveManager.Instance (EnclaveManager.Configure g opts).2 construct).2
        opts).1).googleCode = some GoogleError.failedPrecondition) := by
  refine ⟨?_, ?_, ?_, ?_, ?_, ?_, ?_⟩
  · intro h
    simp [EnclaveManager.Configure, h]
  · intro h
    simp [EnclaveManager.Configure, h]
  · intro m h
    simp [EnclaveManager.Instance, h]
  · intro h1 h2
    simp [EnclaveManager.Instance, h1, h2]
  · intro h1 h2 h3
    simp [EnclaveManager.Instance, h1, h2, h3]
  · intro m h1 h2 h3
    simp [EnclaveManager.Instance, h1, h2, h3]
  · intro m h1 h2
    have hC : EnclaveManager.Configure g opts =
        (Status.okStatus, { g with options := some opts, configured := true }) := by
      simp [EnclaveManager.Configure, h1]
    rw [hC]
    have hI : EnclaveManager.Instance
        ({ g with options := some opts, configured := true } : ManagerGlobalState)
        construct =
        (.ok m, { g with options := some opts, configured := true, inst := some m }) := by
      simp [EnclaveManager.Instance, h1, h2]
    rw [hI]
    exact ⟨rfl, by simp [EnclaveManager.Configure, Status.googleCode]⟩

/-- Witness for `c4_configure_once`: a fresh global state, host-config
options, and a construction yielding manager 1. -/
theorem c4_configure_once_witness :
    (EnclaveManager.Instance
      (EnclaveManager.Configure ⟨false, none, none⟩ ⟨.hostConfig 0⟩).2 (some 1)).1 =
      .ok 1 ∧
    ((EnclaveManager.Configure
      (EnclaveManager.Instance
        (EnclaveManager.Configure ⟨false, none, none⟩ ⟨.hostConfig 0⟩).2 (some 1)).2
      ⟨.hostConfig 0⟩).1).googleCode = some GoogleError.failedPrecondition :=
  (c4_configure_once ⟨false, none, none⟩ ⟨.hostConfig 0⟩ (some 1)).2.2.2.2.2.2 1 rfl rfl

/-- C10: in the embedded-section load with a nonzero target base address
and size, when the address range has been successfully reserved, a
failure of the self-binary mapping, of the ELF-reader creation, or of
the section lookup returns that error with the range still reserved —
no release is performed — and a release only ever happens on the path
where the section lookup has succeeded. -/
theorem c10_reserved_range_not_released (base enclave_size : Nat) (env : EmbeddedLoadEnv)
    (hb : base ≠ 0) (hs : enclave_size > 0) (hm : env.mmapReturnsBase = true) :
    (∀ st, env.fileMappingResult = .error st →
      SgxEmbeddedBackend.Load base enclave_size env = (.error st, [.reserveRange])) ∧
    (∀ st, env.fileMappingResult = .ok () → env.elfReaderResult = .error st →
      SgxEmbeddedBackend.Load base enclave_size env = (.error st, [.reserveRange])) ∧
    (∀ st, env.fileMappingResult = .ok () → env.elfReaderResult = .ok () →
      env.sectionDataResult = .error st →
      SgxEmbeddedBackend.Load base enclave_size env = (.error st, [.reserveRange])) ∧
    (LoadAction.releaseRange ∈ (SgxEmbeddedBackend.Load base enclave_size env).2 →
      env.sectionDataResult = .ok ()) := by
  obtain ⟨mm, fm, er, sd, mo, co⟩ := env
  simp only at hm
  subst hm
  refine ⟨?_, ?_, ?_, ?_⟩
  · intro st hf
    simp only at hf
    subst hf
    simp [SgxEmbeddedBackend.Load, hb, hs]
  · intro st hf he
    simp only at hf he
    subst hf
    subst he
    simp [SgxEmbeddedBackend.Load, hb, hs]
  · intro st hf he hd
    simp only at hf he hd
    subst hf
    subst he
    subst hd
    simp [SgxEmbeddedBackend.Load, hb, hs]
  · intro hmem
    rcases fm with stf | uf
    · simp [SgxEmbeddedBackend.Load, hb, hs] at hmem
    · cases uf
      rcases er with ste | ue
      · simp [SgxEmbeddedBackend.Load, hb, hs] at hmem
      · cases ue
        rcases sd with sts | us
        · simp [SgxEmbeddedBackend.Load, hb, hs] at hmem
        · cases us
          rfl

/-- Witness for `c10_reserved_range_not_released`: a reserved range at
base 4096 of size 8192 whose self-binary mapping fails; the error comes
back with only the reserve action performed. -/
theorem c10_reserved_range_not_released_witness :
    SgxEmbeddedBackend.Load 4096 8192
      { mmapReturnsBase := true,
        fileMappingResult := .error (Status.google .internal "Could not map file"),
        elfReaderResult := .ok (), sectionDataResult := .ok (), munmapOk := true,
        createOutcomes := fun _ => .success } =
      (.error (Status.google .internal "Could not map file"), [.reserveRange]) :=
  (c10_reserved_range_not_released 4096 8192
    { mmapReturnsBase := true,
      fileMappingResult := .error (Status.google .internal "Could not map file"),
      elfReaderResult := .ok (), sectionDataResult := .ok (), munmapOk := true,
      createOutcomes := fun _ => .success } (by decide) (by decide) rfl).1 _ rfl

end Asylo
